import Mathlib

/-!
Verification development for the embedded-document virtualization and
multi-project service layer of the vetur language server.

The definitions below are a shallow embedding of the TypeScript sources:

* `src/server/src/services/typescriptService/serviceHost.ts` — the
  multi-project service host (`getServiceHost`): project registry,
  directory attachment, document/version bookkeeping, external-document
  invalidation, and the host-level module resolution cache.
* `src/server/src/modes/script/serviceHost.ts` — the older single-project
  service host: `getVueSys` (virtual filesystem), path classification
  (`isVirtualVueFile` / `isVirtualVueTemplateFile`),
  `updateCurrentTextDocument`, and the relaxed template host options.
* `src/server/src/modes/script/javascript.ts` — the script-mode feature
  operations (validate, complete, hover, …) routed through the language
  service.

External collaborators (the TypeScript compiler API, the LSP document
caches, path/URI normalization) are modelled as parameters bundled in
environment structures; the analysis engine is an opaque record of
capability functions, exactly as the spec treats it.
-/

namespace Vetur

/-! ### Association-list maps (JS `Map` semantics) -/

def lookupA [DecidableEq α] : List (α × β) → α → Option β
  | [], _ => none
  | (k, v) :: rest, key => if k = key then some v else lookupA rest key

def insertA [DecidableEq α] : List (α × β) → α → β → List (α × β)
  | [], k, v => [(k, v)]
  | (k', v') :: rest, k, v =>
    if k' = k then (k, v) :: rest else (k', v') :: insertA rest k v

def removeA [DecidableEq α] : List (α × β) → α → List (α × β)
  | [], _ => []
  | (k', v') :: rest, k =>
    if k' = k then removeA rest k else (k', v') :: removeA rest k

def removeAllA [DecidableEq α] (l : List (α × β)) (keys : List α) : List (α × β) :=
  keys.foldl removeA l

/-- `Set.add` semantics: adding an element already present leaves the set as is. -/
def addSet [DecidableEq α] (l : List α) (a : α) : List α :=
  if a ∈ l then l else a :: l

def mapWithIndex (f : Nat → α → β) : Nat → List α → List β
  | _, [] => []
  | i, a :: as => f i a :: mapWithIndex f (i + 1) as

def listJoin : List (List α) → List α
  | [] => []
  | l :: ls => l ++ listJoin ls

/-! ### Strings as character lists (structural, kernel-reducible) -/

def strEndsWith (s suffix : String) : Bool :=
  suffix.data.isSuffixOf s.data

def strTake (s : String) (n : Nat) : String :=
  ⟨s.data.take n⟩

def listContainsSeq [DecidableEq α] : List α → List α → Bool
  | l, pat => if pat.isPrefixOf l then true else
      match l with
      | [] => pat.isEmpty
      | _ :: rest => listContainsSeq rest pat

def strContainsSub (s pat : String) : Bool :=
  listContainsSeq s.data pat.data

/-! ### Text documents and LSP positions

`TextDoc` models a `vscode-languageserver-types` `TextDocument` snapshot
(identity, declared language, version, full text). `positionAt`/`offsetAt`
model the library's line/character ↔ offset conversion. -/

structure TextDoc where
  uri : String
  languageId : String
  version : Nat
  text : String
  deriving DecidableEq

structure Pos where
  line : Nat
  character : Nat
  deriving DecidableEq

structure LspRange where
  startPos : Pos
  endPos : Pos
  deriving DecidableEq

def lineStartsAux : List Char → Nat → List Nat
  | [], _ => []
  | c :: rest, i =>
    if c = '\n' then (i + 1) :: lineStartsAux rest (i + 1) else lineStartsAux rest (i + 1)

/-- Offsets at which each line of `text` starts (line 0 starts at offset 0). -/
def lineStarts (text : String) : List Nat :=
  0 :: lineStartsAux text.data 0

def positionAt (text : String) (offset : Nat) : Pos :=
  let off := min offset text.data.length
  let starts := (lineStarts text).filter (fun st => decide (st ≤ off))
  ⟨starts.length - 1, off - starts.getLastD 0⟩

def offsetAt (text : String) (p : Pos) : Nat :=
  let starts := lineStarts text
  if p.line < starts.length then
    let lineOff := starts.getD p.line 0
    let nextOff := if p.line + 1 < starts.length then starts.getD (p.line + 1) 0 else text.data.length
    max (min (lineOff + p.character) nextOff) lineOff
  else text.data.length

/-- Character of `text` at index `i`, if any. -/
def charAt (text : String) (i : Nat) : Option Char :=
  text.data.getD i ' ' |> fun c => if i < text.data.length then some c else none

structure TsSpan where
  start : Nat
  length : Nat
  deriving DecidableEq

def convertRange (text : String) (span : TsSpan) : LspRange :=
  ⟨positionAt text span.start, positionAt text (span.start + span.length)⟩

/-! ### Compiler options (the fields the claims are about) -/

structure CompilerOptions where
  noImplicitAny : Option Bool
  noUnusedLocals : Option Bool
  noUnusedParameters : Option Bool
  allowJs : Option Bool
  checkJs : Option Bool
  deriving DecidableEq

def emptyCompilerOptions : CompilerOptions :=
  ⟨none, none, none, none, none⟩

/-- `createTemplateLanguageService` (typescriptService/serviceHost.ts, lines
504–514): the template host spreads the project's compiler options and
overrides exactly `noUnusedLocals`, `noUnusedParameters`, `allowJs`,
`checkJs`. -/
def templateServiceOptions (o : CompilerOptions) : CompilerOptions :=
  { o with
    noUnusedLocals := some false
    noUnusedParameters := some false
    allowJs := some true
    checkJs := some true }

/-- The template host of the older single-project service host
(modes/script/serviceHost.ts, lines 244–251), which additionally overrides
`noImplicitAny`. -/
def templateHostOptionsScriptMode (o : CompilerOptions) : CompilerOptions :=
  { o with
    noImplicitAny := some false
    noUnusedLocals := some false
    noUnusedParameters := some false
    allowJs := some true
    checkJs := some true }

/-! ### Virtual path classification (modes/script/serviceHost.ts, lines 275–284) -/

/-- A path ending in `.vue.ts` outside `node_modules` is a `.vue` file
pre-processed for the TS language service. -/
def isVirtualVueFile (p : String) : Bool :=
  strEndsWith p ".vue.ts" && !(strContainsSub p "node_modules")

/-- A path ending in `.vue.template` is a `.vue` file's template part
pre-processed for template diagnostics. -/
def isVirtualVueTemplateFile (p : String) : Bool :=
  strEndsWith p ".vue.template"

/-! ### Virtual filesystem (`getVueSys`, modes/script/serviceHost.ts, lines 23–62)

`SysModel` is the consumed filesystem capability (`ts.sys`); `parseVueScript`
(preprocess.ts, script-region extraction) is a parameter. -/

structure SysModel where
  fileExists : String → Bool
  readFile : String → Option String

def vueSysFileExists (sys : SysModel) (p : String) : Bool :=
  if isVirtualVueFile p then
    sys.fileExists (strTake p (p.data.length - 3))
  else if isVirtualVueTemplateFile p then
    sys.fileExists (strTake p (p.data.length - 9))
  else
    sys.fileExists p

def vueSysReadFile (parseVueScript : String → String) (sys : SysModel) (p : String) :
    Option String :=
  if isVirtualVueFile p then
    match sys.readFile (strTake p (p.data.length - 3)) with
    | some t => if t = "" then some t else some (parseVueScript t)
    | none => none
  else if isVirtualVueTemplateFile p then
    sys.readFile (strTake p (p.data.length - 9))
  else
    sys.readFile p

/-- Modelled from the spec: the template-transform content of a composite text
(§4.3, §4.5). `preprocess.ts`/`transformTemplate.ts` are not under `src`;
per §4.3 the transform consumes the template region specifically and, when no
matching region exists, the synthesized virtual document is empty
(zero-length text). Only this no-region case is determined here; when a
template region is present the transformed text is left unspecified
(`none`). -/
def specTemplateTransform (text : String) : Option String :=
  if strContainsSub text "<template" then none else some ""

/-! ### Path/URI collaborators (`utils/paths.ts`, not under `src`)

The service hosts consume `getFileFsPath`, `getFilePath`,
`getDirectoryName` and `Uri.file(...).toString()` from the path utilities;
they are kept as parameters of the embedding. -/

structure PathEnv where
  getFileFsPath : String → String
  getFilePath : String → String
  getDirectoryName : String → String
  fileUri : String → String

/-- Paths taken verbatim as URIs and vice versa; the concrete instantiation
used by witnesses (the claims under verification are agnostic to URI
normalization). -/
def idPaths : PathEnv :=
  ⟨fun u => u, fun u => u, fun u => u, fun u => u⟩

/-! ### The multi-project service host
(`typescriptService/serviceHost.ts`, `getServiceHost`)

Projects are heap objects shared by reference between
`projectsLanguageServices` (config path → project) and
`directoryToProjects` (directory → project). The embedding gives every
allocated object (projects, language-service instances) a numeric identity
drawn from an allocation counter `nextId`; reference equality is identity
equality, and the object store `projectStore` maps a project identity to its
current field values. -/

structure VProject where
  options : CompilerOptions
  templateOptions : CompilerOptions
  jsServiceId : Nat
  templateServiceId : Nat
  jsRegistryId : Nat
  templateRegistryId : Nat
  attachedDirectories : List String
  deriving DecidableEq

structure HostState where
  projectVersion : Nat
  versions : List (String × Nat)
  localScriptRegionDocuments : List (String × TextDoc)
  scriptFileNameSet : List String
  directoryToProjects : List (String × Nat)
  projectsLanguageServices : List (Option String × Nat)
  projectStore : List (Nat × VProject)
  projectFileSnapshots : List (String × String)
  allChildComponentsInfo : List (String × List String)
  moduleResolutionCache : List ((String × String) × String)
  registryId : Nat
  nextId : Nat
  currentScriptDoc : Option TextDoc
  deriving DecidableEq

/-- Closure state of `getServiceHost` right after construction: version
counter starts at 1, one shared document registry, all maps empty. -/
def initialHostState : HostState :=
  { projectVersion := 1
    versions := []
    localScriptRegionDocuments := []
    scriptFileNameSet := []
    directoryToProjects := []
    projectsLanguageServices := []
    projectStore := []
    projectFileSnapshots := []
    allChildComponentsInfo := []
    moduleResolutionCache := []
    registryId := 0
    nextId := 1
    currentScriptDoc := none }

/-- Collaborators consumed by the multi-project service host: path
utilities, config-file discovery (`getNearestConfigFile`, filesystem walk),
config parsing merged with defaults (`createProjectCompilerOption`), the
script-region document cache (`updatedScriptRegionDocuments.refreshAndGet`)
and the TS-internal `isExcludedFile` test. -/
structure HostEnv where
  paths : PathEnv
  nearestConfigFile : String → Option String
  projectOptionsOf : Option String → CompilerOptions
  refreshAndGet : TextDoc → TextDoc
  isExcludedFile : String → Bool

/-- Modelled from the spec: `ModuleResolutionCache.setCache` (§4.7;
`moduleResolutionCache.ts` is not under `src`, but its call sites in
`serviceHost.ts` (`resolveModuleNames`) invoke
`setCache(name, containingFile, resolvedModule)`): memoize the
(specifier, containing-file) → resolution lookup in the host-level cache. -/
def setModuleResolutionCache (name containingFile resolved : String) (s : HostState) :
    HostState :=
  { s with moduleResolutionCache := insertA s.moduleResolutionCache (name, containingFile) resolved }

/-- `getOrCreateProject` (serviceHost.ts, lines 516–533): look the nearest
config file up in `projectsLanguageServices`; on a miss construct a project
whose two language services share the host's single document registry, and
cache it keyed by the config file path. Returns the project's identity. -/
def getOrCreateProject (env : HostEnv) (workingDirectory : String) (s : HostState) :
    Nat × HostState :=
  let configFilename := env.nearestConfigFile workingDirectory
  match lookupA s.projectsLanguageServices configFilename with
  | some pid => (pid, s)
  | none =>
    let compilerOptions := env.projectOptionsOf configFilename
    let pid := s.nextId
    let project : VProject :=
      { options := compilerOptions
        templateOptions := templateServiceOptions compilerOptions
        jsServiceId := pid + 1
        templateServiceId := pid + 2
        jsRegistryId := s.registryId
        templateRegistryId := s.registryId
        attachedDirectories := [] }
    (pid,
      { s with
        nextId := pid + 3
        projectStore := insertA s.projectStore pid project
        projectsLanguageServices := insertA s.projectsLanguageServices configFilename pid })

/-- `getProjectFromWorkingDirectory` (serviceHost.ts, lines 535–545). -/
def getProjectFromWorkingDirectory (env : HostEnv) (workingDirectory : String)
    (s : HostState) : Nat × HostState :=
  match lookupA s.directoryToProjects workingDirectory with
  | some pid => (pid, s)
  | none =>
    let pid := (getOrCreateProject env workingDirectory s).1
    let s1 := (getOrCreateProject env workingDirectory s).2
    let store :=
      match lookupA s1.projectStore pid with
      | some p =>
        insertA s1.projectStore pid
          { p with attachedDirectories := addSet p.attachedDirectories workingDirectory }
      | none => s1.projectStore
    (pid,
      { s1 with
        projectStore := store
        directoryToProjects := insertA s1.directoryToProjects workingDirectory pid })

/-- Replace a project's `jsLanguageService` with a freshly created instance
(the languageId-changed branch of `updateCurrentVueTextDocument`). -/
def restartJsLanguageService (s : HostState) (pid : Nat) : HostState :=
  match lookupA s.projectStore pid with
  | some p =>
    { s with
      projectStore := insertA s.projectStore pid { p with jsServiceId := s.nextId }
      nextId := s.nextId + 1 }
  | none => s

def jsServiceIdOf (s : HostState) (pid : Nat) : Nat :=
  ((lookupA s.projectStore pid).map VProject.jsServiceId).getD 0

/-- The attached-directories set of the project object with identity `pid`. -/
def attachedDirectoriesOf (s : HostState) (pid : Nat) : List String :=
  ((lookupA s.projectStore pid).map VProject.attachedDirectories).getD []

def templateServiceIdOf (s : HostState) (pid : Nat) : Nat :=
  ((lookupA s.projectStore pid).map VProject.templateServiceId).getD 0

/-- `updateCurrentVirtualVueTextDocument` (serviceHost.ts, lines 155–180). -/
def updateCurrentVirtualVueTextDocument (env : HostEnv) (doc : TextDoc)
    (childComponents : Option (List String)) (s : HostState) : Nat × HostState :=
  let fileFsPath := env.paths.getFileFsPath doc.uri
  let filePath := env.paths.getFilePath doc.uri
  let dirPath := env.paths.getDirectoryName fileFsPath
  -- When file is not in language service, add it
  let s0 :=
    if (lookupA s.localScriptRegionDocuments fileFsPath).isNone
        && (strEndsWith fileFsPath ".vue" || strEndsWith fileFsPath ".vue.template") then
      { s with scriptFileNameSet := addSet s.scriptFileNameSet filePath }
    else s
  let s1 :=
    if isVirtualVueTemplateFile fileFsPath then
      { s0 with
        localScriptRegionDocuments := insertA s0.localScriptRegionDocuments fileFsPath doc
        scriptFileNameSet := addSet s0.scriptFileNameSet filePath
        allChildComponentsInfo :=
          match childComponents with
          | some cc => insertA s0.allChildComponentsInfo filePath cc
          | none => s0.allChildComponentsInfo
        versions := insertA s0.versions fileFsPath ((lookupA s0.versions fileFsPath).getD 0 + 1)
        projectVersion := s0.projectVersion + 1 }
    else s0
  let pid := (getProjectFromWorkingDirectory env dirPath s1).1
  let s2 := (getProjectFromWorkingDirectory env dirPath s1).2
  (templateServiceIdOf s2 pid, s2)

/-- `updateCurrentVueTextDocument` (serviceHost.ts, lines 182–214). Returns
the (identity of the) js language service and the current script document. -/
def updateCurrentVueTextDocument (env : HostEnv) (doc : TextDoc) (s : HostState) :
    (Nat × TextDoc) × HostState :=
  let fileFsPath := env.paths.getFileFsPath doc.uri
  let filePath := env.paths.getFilePath doc.uri
  let dirPath := env.paths.getDirectoryName fileFsPath
  -- When file is not in language service, add it
  let s0 :=
    if (lookupA s.localScriptRegionDocuments fileFsPath).isNone
        && (strEndsWith fileFsPath ".vue" || strEndsWith fileFsPath ".vue.template") then
      { s with scriptFileNameSet := addSet s.scriptFileNameSet filePath }
    else s
  let pid := (getProjectFromWorkingDirectory env dirPath s0).1
  let s1 := (getProjectFromWorkingDirectory env dirPath s0).2
  let needRefresh : Bool :=
    match s1.currentScriptDoc with
    | none => true
    | some c => decide (doc.uri ≠ c.uri) || decide (doc.version ≠ c.version)
  if needRefresh then
    let newScriptDoc := env.refreshAndGet doc
    -- if languageId changed, restart the language service
    let s2 :=
      match lookupA s1.localScriptRegionDocuments fileFsPath with
      | some localLastDoc =>
        if newScriptDoc.languageId ≠ localLastDoc.languageId then
          restartJsLanguageService s1 pid
        else s1
      | none => s1
    let s3 :=
      { s2 with
        currentScriptDoc := some newScriptDoc
        localScriptRegionDocuments := insertA s2.localScriptRegionDocuments fileFsPath newScriptDoc
        scriptFileNameSet := addSet s2.scriptFileNameSet filePath
        versions := insertA s2.versions fileFsPath ((lookupA s2.versions fileFsPath).getD 0 + 1)
        projectVersion := s2.projectVersion + 1 }
    ((jsServiceIdOf s3 pid, newScriptDoc), s3)
  else
    ((jsServiceIdOf s1 pid, s1.currentScriptDoc.getD doc), s1)

/-- `updateExternalDocument` (serviceHost.ts, lines 217–261): bump the
file's version and the project version, drop the raw-file snapshot, reload
the project in place if the file is a loaded config, and detach the parent
project's directories if a new config file appeared. -/
def updateExternalDocument (env : HostEnv) (fileFsPath : String) (s : HostState) :
    HostState :=
  if env.isExcludedFile fileFsPath then s
  else
    let s0 :=
      { s with
        versions := insertA s.versions fileFsPath ((lookupA s.versions fileFsPath).getD 0 + 1)
        projectVersion := s.projectVersion + 1
        projectFileSnapshots := removeA s.projectFileSnapshots fileFsPath }
    match lookupA s0.projectsLanguageServices (some fileFsPath) with
    | some pid =>
      -- Loaded and updated: reload options, recreate both services in place
      (match lookupA s0.projectStore pid with
      | some project =>
        let compilerOptions := env.projectOptionsOf (some fileFsPath)
        { s0 with
          projectStore := insertA s0.projectStore pid
            { project with
              options := compilerOptions
              templateOptions := templateServiceOptions compilerOptions
              jsServiceId := s0.nextId
              templateServiceId := s0.nextId + 1 }
          nextId := s0.nextId + 2 }
      | none => s0)
    | none =>
      if strEndsWith fileFsPath "/tsconfig.json" || strEndsWith fileFsPath "/jsconfig.json" then
        -- Created or unloaded: force reload attached directories from parent
        let parentConfigFilename :=
          env.nearestConfigFile (env.paths.getDirectoryName (env.paths.getDirectoryName fileFsPath))
        match lookupA s0.projectsLanguageServices parentConfigFilename with
        | some ppid =>
          (match lookupA s0.projectStore ppid with
          | some parentProject =>
            { s0 with
              directoryToProjects :=
                removeAllA s0.directoryToProjects parentProject.attachedDirectories }
          | none => s0)
        | none => s0
      else s0

/-- `deleteExternalDocument` (serviceHost.ts, lines 264–276): remove the
project whose config file was deleted, detach its directories and dispose
its services. -/
def deleteExternalDocument (fileFsPath : String) (s : HostState) : HostState :=
  match lookupA s.projectsLanguageServices (some fileFsPath) with
  | some pid =>
    (match lookupA s.projectStore pid with
    | some project =>
      { s with
        projectsLanguageServices := removeA s.projectsLanguageServices (some fileFsPath)
        directoryToProjects := removeAllA s.directoryToProjects project.attachedDirectories
        projectStore := insertA s.projectStore pid { project with attachedDirectories := [] } }
    | none =>
      { s with projectsLanguageServices := removeA s.projectsLanguageServices (some fileFsPath) })
  | none => s

/-! ### The opaque analysis engine (`ts.LanguageService`)

Per the spec the per-language analysis engine is consumed through a fixed
capability interface; each capability is a record field. Display parts are
modelled by their flattened text (`ts.displayPartsToString`). The engine's
program (`getProgram()`) carries the root file set and source-file texts. -/

structure TsDiag where
  start : Nat
  length : Nat
  messageText : String
  code : Nat
  reportsUnnecessary : Bool
  deriving DecidableEq

structure CompletionEntryM where
  name : String
  kind : String
  sortText : String
  source : Option String
  replacementSpan : Option TsSpan
  deriving DecidableEq

structure CompletionInfoM where
  isMemberCompletion : Bool
  entries : List CompletionEntryM
  deriving DecidableEq

structure FileTextChange where
  span : TsSpan
  newText : String
  deriving DecidableEq

structure FileTextChanges where
  fileName : String
  textChanges : List FileTextChange
  deriving DecidableEq

/-- `ts.CodeAction` / `ts.CodeFixAction`: a description plus file edits. -/
structure TsCodeAction where
  description : String
  changes : List FileTextChanges
  deriving DecidableEq

structure CompletionDetails where
  displayPartsText : String
  documentationText : String
  codeActions : Option (List TsCodeAction)
  deriving DecidableEq

structure QuickInfoM where
  displayPartsText : String
  documentationText : String
  textSpan : TsSpan
  deriving DecidableEq

structure SignParamM where
  displayPartsText : String
  documentationText : String
  deriving DecidableEq

structure SignHelpItemM where
  prefixDisplayPartsText : String
  suffixDisplayPartsText : String
  separatorDisplayPartsText : String
  parameters : List SignParamM
  deriving DecidableEq

structure SignatureHelpItemsM where
  selectedItemIndex : Nat
  argumentIndex : Nat
  items : List SignHelpItemM
  deriving DecidableEq

structure OccurrenceM where
  textSpan : TsSpan
  isWriteAccess : Bool
  deriving DecidableEq

inductive NavBarItem where
  | node (text kind : String) (spans : List TsSpan) (childItems : List NavBarItem)

structure DefinitionInfoM where
  fileName : String
  textSpan : TsSpan
  deriving DecidableEq

structure ApplicableRefactorActionM where
  name : String
  description : String
  deriving DecidableEq

structure ApplicableRefactorInfoM where
  name : String
  description : String
  inlineable : Bool
  actions : List ApplicableRefactorActionM
  deriving DecidableEq

structure ProgramM where
  rootFileNames : List String
  sourceFullText : String → String

structure LanguageService where
  program : ProgramM
  getCompletionsAtPosition : String → Nat → Bool → Option CompletionInfoM
  getCompletionEntryDetails : String → Nat → String → Option String → Option CompletionDetails
  getQuickInfoAtPosition : String → Nat → Option QuickInfoM
  getSignatureHelpItems : String → Nat → Option SignatureHelpItemsM
  getOccurrencesAtPosition : String → Nat → Option (List OccurrenceM)
  getNavigationBarItems : String → Option (List NavBarItem)
  getDefinitionAtPosition : String → Nat → Option (List DefinitionInfoM)
  getReferencesAtPosition : String → Nat → Option (List DefinitionInfoM)
  getSyntacticDiagnostics : String → List TsDiag
  getSemanticDiagnostics : String → List TsDiag
  getCodeFixesAtPosition : String → Nat → Nat → List Nat → List TsCodeAction
  getApplicableRefactors : String → Nat → Nat → List ApplicableRefactorInfoM

/-! ### LSP result types (`vscode-languageserver-types`) -/

structure Diagnostic where
  range : LspRange
  severity : Nat
  message : String
  code : Option Nat
  source : Option String
  tags : List Nat
  deriving DecidableEq

structure TextEditM where
  range : LspRange
  newText : String
  deriving DecidableEq

structure CompletionItemData where
  languageId : String
  uri : String
  offset : Nat
  source : Option String
  deriving DecidableEq

inductive CompletionItemKindM where
  | keyword | variable | field | function | enum | moduleKind | classKind
  | interface | file | property
  deriving DecidableEq

structure CompletionItem where
  uri : String
  position : Pos
  label : String
  sortText : String
  kind : CompletionItemKindM
  textEdit : Option TextEditM
  data : Option CompletionItemData
  detail : Option String
  documentation : Option String
  additionalTextEdits : Option (List TextEditM)
  deriving DecidableEq

structure CompletionListM where
  isIncomplete : Bool
  items : List CompletionItem
  deriving DecidableEq

inductive MarkedStringM where
  | plain (value : String)
  | typed (language value : String)
  deriving DecidableEq

structure HoverM where
  range : Option LspRange
  contents : List MarkedStringM
  deriving DecidableEq

structure ParameterInformationM where
  label : String
  documentation : String
  deriving DecidableEq

structure SignatureInformationM where
  label : String
  documentation : Option String
  parameters : List ParameterInformationM
  deriving DecidableEq

structure SignatureHelpM where
  activeSignature : Nat
  activeParameter : Nat
  signatures : List SignatureInformationM
  deriving DecidableEq

/-- Modelled from the spec: `NULL_SIGNATURE` from `nullMode.ts` (not under
`src`) — the signature-help operation's defined empty value (§7: empty
default result). -/
def nullSignature : SignatureHelpM :=
  ⟨0, 0, []⟩

inductive DocumentHighlightKindM where
  | text | write
  deriving DecidableEq

structure DocumentHighlightM where
  range : LspRange
  kind : DocumentHighlightKindM
  deriving DecidableEq

inductive SymbolKindM where
  | variable | function | enum | moduleKind | classKind | interface
  | method | property
  deriving DecidableEq

structure SymbolInformationM where
  name : String
  kind : SymbolKindM
  uri : String
  range : LspRange
  containerName : Option String
  deriving DecidableEq

structure LocationM where
  uri : String
  range : LspRange
  deriving DecidableEq

structure FormatCodeSettings where
  tabSize : Nat
  indentSize : Nat
  convertTabsToSpaces : Bool
  deriving DecidableEq

structure RefactorActionArgs where
  fileName : String
  formatOptions : FormatCodeSettings
  posStart : Nat
  posEnd : Nat
  refactorName : String
  actionName : String
  description : String
  deriving DecidableEq

inductive CommandArg where
  | workspaceEdits (changes : List (String × List TextEditM))
  | refactor (action : RefactorActionArgs)
  deriving DecidableEq

structure CommandM where
  title : String
  command : String
  arguments : List CommandArg
  deriving DecidableEq

/-! ### Script mode (`modes/script/javascript.ts`) over the single-project
service host (`modes/script/serviceHost.ts`) -/

/-- User-facing settings the mode consults (injected plain configuration,
§6): `vetur.experimental.templateTypeCheck`, `vetur.completion.autoImport`,
`vetur.format.options`. -/
structure VeturConfig where
  templateTypeCheck : Bool
  autoImport : Bool
  tabSize : Nat
  useTabs : Bool

/-- Collaborators of the script mode: path utilities, the script-region
document cache (`jsDocuments.get`), fresh language-service construction
(`ts.createLanguageService`, for the languageId-changed restart), the first
script region (`firstScriptRegion.get(...).start`), the injected user
configuration and `ts.getSupportedCodeFixes()`. -/
structure ModeEnv where
  paths : PathEnv
  jsDocumentsGet : TextDoc → TextDoc
  freshJsLanguageService : LanguageService
  regionStart : TextDoc → Option Pos
  config : VeturConfig
  supportedCodeFixCodes : List Nat

/-- Closure state of the single-project service host (`getServiceHost`,
modes/script/serviceHost.ts). -/
structure ScriptModeState where
  currentScriptDoc : Option TextDoc
  versions : List (String × Nat)
  scriptDocs : List (String × TextDoc)
  files : List String
  jsLanguageService : LanguageService
  templateLanguageService : LanguageService

structure UpdateDocResult where
  service : LanguageService
  templateService : LanguageService
  scriptDoc : TextDoc

/-- `updateCurrentTextDocument` (modes/script/serviceHost.ts, lines
109–137). The returned `scriptDoc` is `currentScriptDoc`, typed non-null in
the source; the model defaults it to the input document. -/
def updateCurrentTextDocument (env : ModeEnv) (doc : TextDoc) (s : ScriptModeState) :
    UpdateDocResult × ScriptModeState :=
  let fileFsPath := env.paths.getFileFsPath doc.uri
  let filePath := env.paths.getFilePath doc.uri
  -- When file is not in language service, add it
  let s0 :=
    if (lookupA s.scriptDocs fileFsPath).isNone
        && (strEndsWith fileFsPath ".vue" || strEndsWith fileFsPath ".vue.template") then
      { s with files := s.files ++ [filePath] }
    else s
  let s1 :=
    if isVirtualVueTemplateFile fileFsPath then
      { s0 with
        scriptDocs := insertA s0.scriptDocs fileFsPath doc
        versions := insertA s0.versions fileFsPath ((lookupA s0.versions fileFsPath).getD 0 + 1) }
    else if (match s0.currentScriptDoc with
             | none => true
             | some c => decide (doc.uri ≠ c.uri) || decide (doc.version ≠ c.version)) then
      let newDoc := env.jsDocumentsGet doc
      -- if languageId changed, restart the language service
      let s0' :=
        match lookupA s0.scriptDocs fileFsPath with
        | some lastDoc =>
          if newDoc.languageId ≠ lastDoc.languageId then
            { s0 with jsLanguageService := env.freshJsLanguageService }
          else s0
        | none => s0
      { s0' with
        currentScriptDoc := some newDoc
        scriptDocs := insertA s0'.scriptDocs fileFsPath newDoc
        versions := insertA s0'.versions fileFsPath ((lookupA s0'.versions fileFsPath).getD 0 + 1) }
    else s0
  (⟨s1.jsLanguageService, s1.templateLanguageService, s1.currentScriptDoc.getD doc⟩, s1)

/-- `languageServiceIncludesFile` (javascript.ts, lines 651–655). -/
def languageServiceIncludesFile (env : ModeEnv) (ls : LanguageService)
    (documentUri : String) : Bool :=
  ls.program.rootFileNames.contains (env.paths.getFilePath documentUri)

def convertKind (kind : String) : CompletionItemKindM :=
  if kind = "primitive type" ∨ kind = "keyword" then .keyword
  else if kind = "var" ∨ kind = "local var" then .variable
  else if kind = "property" ∨ kind = "getter" ∨ kind = "setter" then .field
  else if kind = "function" ∨ kind = "method" ∨ kind = "construct" ∨ kind = "call"
      ∨ kind = "index" then .function
  else if kind = "enum" then .enum
  else if kind = "module" then .moduleKind
  else if kind = "class" then .classKind
  else if kind = "interface" then .interface
  else if kind = "warning" then .file
  else .property

def convertSymbolKind (kind : String) : SymbolKindM :=
  if kind = "var" ∨ kind = "local var" ∨ kind = "const" then .variable
  else if kind = "function" ∨ kind = "local function" then .function
  else if kind = "enum" then .enum
  else if kind = "module" then .moduleKind
  else if kind = "class" then .classKind
  else if kind = "interface" then .interface
  else if kind = "method" then .method
  else if kind = "property" ∨ kind = "getter" ∨ kind = "setter" then .property
  else .variable

def getFormatCodeSettings (config : VeturConfig) : FormatCodeSettings :=
  ⟨config.tabSize, config.tabSize, !config.useTabs⟩

/-- `getTemplateDiagnostics` (javascript.ts, lines 115–147): with template
type-checking enabled, process the document under a `.template`-suffixed
identity and collect semantic diagnostics from the template service. -/
def getTemplateDiagnostics (env : ModeEnv) (doc : TextDoc) (s : ScriptModeState) :
    List Diagnostic × ScriptModeState :=
  if !env.config.templateTypeCheck then ([], s)
  else
    -- Add suffix to process this doc as vue template.
    let templateDoc : TextDoc :=
      ⟨doc.uri ++ ".template", doc.languageId, doc.version, doc.text⟩
    let r := (updateCurrentTextDocument env templateDoc s).1
    let s1 := (updateCurrentTextDocument env templateDoc s).2
    let result :=
      if !languageServiceIncludesFile env r.templateService templateDoc.uri then []
      else
        let templateFileFsPath := env.paths.getFileFsPath templateDoc.uri
        let raw := r.templateService.getSemanticDiagnostics templateFileFsPath
        raw.map fun diag =>
          { range := convertRange templateDoc.text ⟨diag.start, diag.length⟩
            severity := 1
            message := diag.messageText
            code := some diag.code
            source := some "Vetur"
            tags := [] }
    (result, s1)

/-- `getScriptDiagnostics` (javascript.ts, lines 149–179). -/
def getScriptDiagnostics (env : ModeEnv) (doc : TextDoc) (s : ScriptModeState) :
    List Diagnostic × ScriptModeState :=
  let r := (updateCurrentTextDocument env doc s).1
  let s1 := (updateCurrentTextDocument env doc s).2
  let result :=
    if !languageServiceIncludesFile env r.service doc.uri then []
    else
      let fileFsPath := env.paths.getFileFsPath doc.uri
      let raw := r.service.getSyntacticDiagnostics fileFsPath
          ++ r.service.getSemanticDiagnostics fileFsPath
      raw.map fun diag =>
        { range := convertRange r.scriptDoc.text ⟨diag.start, diag.length⟩
          severity := 1
          message := diag.messageText
          code := some diag.code
          source := some "Vetur"
          tags := if diag.reportsUnnecessary then [1] else [] }
  (result, s1)

/-- `doValidation` (javascript.ts, lines 110–114): template-derived
diagnostics concatenated with script-derived diagnostics. -/
def doValidation (env : ModeEnv) (doc : TextDoc) (s : ScriptModeState) :
    List Diagnostic × ScriptModeState :=
  let templateDiags := (getTemplateDiagnostics env doc s).1
  let s1 := (getTemplateDiagnostics env doc s).2
  (templateDiags ++ (getScriptDiagnostics env doc s1).1, (getScriptDiagnostics env doc s1).2)

/-- `doComplete` (javascript.ts, lines 181–222). -/
def doComplete (env : ModeEnv) (doc : TextDoc) (position : Pos) (s : ScriptModeState) :
    CompletionListM × ScriptModeState :=
  let r := (updateCurrentTextDocument env doc s).1
  let s1 := (updateCurrentTextDocument env doc s).2
  let result : CompletionListM :=
    if !languageServiceIncludesFile env r.service doc.uri then ⟨false, []⟩
    else
      let fileFsPath := env.paths.getFileFsPath doc.uri
      let offset := offsetAt r.scriptDoc.text position
      let triggerChar := if offset = 0 then none else charAt doc.text (offset - 1)
      if triggerChar = some '<' ∨ triggerChar = some '/' ∨ triggerChar = some '*'
          ∨ triggerChar = some ':' then ⟨false, []⟩
      else
        match r.service.getCompletionsAtPosition fileFsPath offset env.config.autoImport with
        | none => ⟨false, []⟩
        | some completions =>
          let entries := completions.entries.filter fun entry =>
            decide (entry.name ≠ "__vueEditorBridge")
          ⟨false,
            mapWithIndex (fun index entry =>
              let range := entry.replacementSpan.map (convertRange r.scriptDoc.text)
              { uri := doc.uri
                position := position
                label := entry.name
                sortText := entry.sortText ++ toString index
                kind := convertKind entry.kind
                textEdit := range.map fun rg => ⟨rg, entry.name⟩
                data := some ⟨r.scriptDoc.languageId, doc.uri, offset, entry.source⟩
                detail := none
                documentation := none
                additionalTextEdits := none }) 0 entries⟩
  (result, s1)

/-- `convertCodeAction` (javascript.ts, lines 744–776). -/
def convertCodeAction (env : ModeEnv) (doc : TextDoc) (codeActions : List TsCodeAction) :
    List TextEditM :=
  let scriptStartOffset := offsetAt doc.text ((env.regionStart doc).getD ⟨0, 0⟩)
  listJoin (codeActions.map fun action =>
    listJoin (action.changes.map fun change =>
      change.textChanges.map fun tc =>
        if tc.span.start ≤ scriptStartOffset ∧ tc.span.length = 0 then
          match env.regionStart doc with
          | some region => ⟨⟨⟨region.line + 1, 0⟩, ⟨region.line + 1, 0⟩⟩, tc.newText⟩
          | none => ⟨convertRange doc.text tc.span, tc.newText⟩
        else ⟨convertRange doc.text tc.span, tc.newText⟩))

/-- `doResolve` (javascript.ts, lines 223–262). -/
def doResolve (env : ModeEnv) (doc : TextDoc) (item : CompletionItem) (s : ScriptModeState) :
    CompletionItem × ScriptModeState :=
  let r := (updateCurrentTextDocument env doc s).1
  let s1 := (updateCurrentTextDocument env doc s).2
  let result : CompletionItem :=
    if !languageServiceIncludesFile env r.service doc.uri then item
    else
      let fileFsPath := env.paths.getFileFsPath doc.uri
      let d := item.data.getD ⟨"", "", 0, none⟩
      match r.service.getCompletionEntryDetails fileFsPath d.offset item.label d.source with
      | none => item
      | some details =>
        let withActions := details.codeActions.isSome ∧ env.config.autoImport
        let documentationValue :=
          match details.codeActions with
          | some actions =>
            if env.config.autoImport then
              actions.foldl
                (fun acc action =>
                  if action.description ≠ "" then acc ++ "\n" ++ action.description else acc)
                details.documentationText
            else details.documentationText
          | none => details.documentationText
        { item with
            detail := some details.displayPartsText
            documentation := some documentationValue
            additionalTextEdits :=
              if withActions then
                some (convertCodeAction env doc ((details.codeActions).getD []))
              else item.additionalTextEdits
            data := none }
  (result, s1)

/-- `doHover` (javascript.ts, lines 263–284). -/
def doHover (env : ModeEnv) (doc : TextDoc) (position : Pos) (s : ScriptModeState) :
    HoverM × ScriptModeState :=
  let r := (updateCurrentTextDocument env doc s).1
  let s1 := (updateCurrentTextDocument env doc s).2
  let result : HoverM :=
    if !languageServiceIncludesFile env r.service doc.uri then ⟨none, []⟩
    else
      let fileFsPath := env.paths.getFileFsPath doc.uri
      match r.service.getQuickInfoAtPosition fileFsPath (offsetAt r.scriptDoc.text position) with
      | some info =>
        let display := info.displayPartsText
        let docText := info.documentationText
        let markedContents : List MarkedStringM :=
          if docText ≠ "" then
            [.plain docText, .plain "\n", .typed "ts" display]
          else [.typed "ts" display]
        ⟨some (convertRange r.scriptDoc.text info.textSpan), markedContents⟩
      | none => ⟨none, []⟩
  (result, s1)

def strIntercalate (sep : String) : List String → String
  | [] => ""
  | [x] => x
  | x :: xs => x ++ sep ++ strIntercalate sep xs

/-- `doSignatureHelp` (javascript.ts, lines 285–325). -/
def doSignatureHelp (env : ModeEnv) (doc : TextDoc) (position : Pos) (s : ScriptModeState) :
    SignatureHelpM × ScriptModeState :=
  let r := (updateCurrentTextDocument env doc s).1
  let s1 := (updateCurrentTextDocument env doc s).2
  let result : SignatureHelpM :=
    if !languageServiceIncludesFile env r.service doc.uri then nullSignature
    else
      let fileFsPath := env.paths.getFileFsPath doc.uri
      match r.service.getSignatureHelpItems fileFsPath (offsetAt r.scriptDoc.text position) with
      | none => nullSignature
      | some signHelp =>
        ⟨signHelp.selectedItemIndex, signHelp.argumentIndex,
          signHelp.items.map fun item =>
            let paramLabels := item.parameters.map SignParamM.displayPartsText
            { label := item.prefixDisplayPartsText
                ++ strIntercalate item.separatorDisplayPartsText paramLabels
                ++ item.suffixDisplayPartsText
              documentation := none
              parameters := item.parameters.map fun p =>
                ⟨p.displayPartsText, p.documentationText⟩ }⟩
  (result, s1)

/-- `findDocumentHighlight` (javascript.ts, lines 326–343). -/
def findDocumentHighlight (env : ModeEnv) (doc : TextDoc) (position : Pos)
    (s : ScriptModeState) : List DocumentHighlightM × ScriptModeState :=
  let r := (updateCurrentTextDocument env doc s).1
  let s1 := (updateCurrentTextDocument env doc s).2
  let result : List DocumentHighlightM :=
    if !languageServiceIncludesFile env r.service doc.uri then []
    else
      let fileFsPath := env.paths.getFileFsPath doc.uri
      match r.service.getOccurrencesAtPosition fileFsPath (offsetAt r.scriptDoc.text position) with
      | some occurrences =>
        occurrences.map fun entry =>
          ⟨convertRange r.scriptDoc.text entry.textSpan,
            if entry.isWriteAccess then .write else .text⟩
      | none => []
  (result, s1)

mutual

/-- `collectSymbols` (javascript.ts, lines 357–379): pre-order traversal of
the navigation-bar tree with signature-based deduplication and container
labels. -/
def collectSymbolsOne (docUri : String) (scriptText : String) (item : NavBarItem)
    (containerLabel : Option String) (acc : List SymbolInformationM × List String) :
    List SymbolInformationM × List String :=
  match item with
  | .node text kind spans childItems =>
    let span0 := spans.headD ⟨0, 0⟩
    let sig := text ++ kind ++ toString span0.start
    let pushed := kind ≠ "script" ∧ ¬ acc.2.contains sig
    let acc' :=
      if pushed then
        (acc.1 ++ [⟨text, convertSymbolKind kind, docUri, convertRange scriptText span0,
            containerLabel⟩], sig :: acc.2)
      else acc
    let newContainer := if pushed then some text else containerLabel
    collectSymbolsMany docUri scriptText childItems newContainer acc'

def collectSymbolsMany (docUri : String) (scriptText : String) (items : List NavBarItem)
    (containerLabel : Option String) (acc : List SymbolInformationM × List String) :
    List SymbolInformationM × List String :=
  match items with
  | [] => acc
  | i :: rest =>
    collectSymbolsMany docUri scriptText rest containerLabel
      (collectSymbolsOne docUri scriptText i containerLabel acc)

end

/-- `findDocumentSymbols` (javascript.ts, lines 344–383). -/
def findDocumentSymbols (env : ModeEnv) (doc : TextDoc) (s : ScriptModeState) :
    List SymbolInformationM × ScriptModeState :=
  let r := (updateCurrentTextDocument env doc s).1
  let s1 := (updateCurrentTextDocument env doc s).2
  let result : List SymbolInformationM :=
    if !languageServiceIncludesFile env r.service doc.uri then []
    else
      let fileFsPath := env.paths.getFileFsPath doc.uri
      match r.service.getNavigationBarItems fileFsPath with
      | none => []
      | some items =>
        (collectSymbolsMany doc.uri r.scriptDoc.text items none ([], [])).1
  (result, s1)

/-- `findDefinition` (javascript.ts, lines 384–409). -/
def findDefinition (env : ModeEnv) (doc : TextDoc) (position : Pos) (s : ScriptModeState) :
    List LocationM × ScriptModeState :=
  let r := (updateCurrentTextDocument env doc s).1
  let s1 := (updateCurrentTextDocument env doc s).2
  let result : List LocationM :=
    if !languageServiceIncludesFile env r.service doc.uri then []
    else
      let fileFsPath := env.paths.getFileFsPath doc.uri
      match r.service.getDefinitionAtPosition fileFsPath (offsetAt r.scriptDoc.text position) with
      | none => []
      | some definitions =>
        definitions.map fun d =>
          ⟨env.paths.fileUri d.fileName,
            convertRange (r.service.program.sourceFullText d.fileName) d.textSpan⟩
  (result, s1)

/-- `findReferences` (javascript.ts, lines 410–437). -/
def findReferences (env : ModeEnv) (doc : TextDoc) (position : Pos) (s : ScriptModeState) :
    List LocationM × ScriptModeState :=
  let r := (updateCurrentTextDocument env doc s).1
  let s1 := (updateCurrentTextDocument env doc s).2
  let result : List LocationM :=
    if !languageServiceIncludesFile env r.service doc.uri then []
    else
      let fileFsPath := env.paths.getFileFsPath doc.uri
      match r.service.getReferencesAtPosition fileFsPath (offsetAt r.scriptDoc.text position) with
      | none => []
      | some references =>
        references.map fun ref =>
          ⟨env.paths.fileUri ref.fileName,
            convertRange (r.service.program.sourceFullText ref.fileName) ref.textSpan⟩
  (result, s1)

/-- `createUriMappingForEdits` (javascript.ts, lines 627–644). -/
def createUriMappingForEdits (env : ModeEnv) (changes : List FileTextChanges)
    (service : LanguageService) : List (String × List TextEditM) :=
  changes.foldl
    (fun result fc =>
      let targetText := service.program.sourceFullText fc.fileName
      let edits := fc.textChanges.map fun tc => (⟨convertRange targetText tc.span, tc.newText⟩ : TextEditM)
      let uri := env.paths.fileUri fc.fileName
      match lookupA result uri with
      | some existing => insertA result uri (existing ++ edits)
      | none => result ++ [(uri, edits)])
    []

def createApplyCodeActionCommand (title : String)
    (uriTextEditMapping : List (String × List TextEditM)) : CommandM :=
  ⟨title, "vetur.applyWorkspaceEdits", [.workspaceEdits uriTextEditMapping]⟩

/-- `collectQuickFixCommands` (javascript.ts, lines 604–613). -/
def collectQuickFixCommands (env : ModeEnv) (fixes : List TsCodeAction)
    (service : LanguageService) : List CommandM :=
  fixes.map fun fix =>
    createApplyCodeActionCommand fix.description (createUriMappingForEdits env fix.changes service)

/-- `collectRefactoringCommands` (javascript.ts, lines 561–602). -/
def collectRefactoringCommands (refactorings : List ApplicableRefactorInfoM)
    (fileName : String) (formatSettings : FormatCodeSettings) (posStart posEnd : Nat) :
    List CommandM :=
  let actions : List RefactorActionArgs :=
    listJoin (refactorings.map fun refactoring =>
      if refactoring.inlineable then
        [⟨fileName, formatSettings, posStart, posEnd, refactoring.name, refactoring.name,
          refactoring.description⟩]
      else
        refactoring.actions.map fun action =>
          ⟨fileName, formatSettings, posStart, posEnd, refactoring.name, action.name,
            action.description⟩)
  actions.map fun action =>
    ⟨action.description, "vetur.chooseTypeScriptRefactoring", [.refactor action]⟩

/-- `getCodeActions` (javascript.ts, lines 438–474). Note: unlike the other
operations, it performs no `languageServiceIncludesFile` check, and the
source's `if (!fixableDiagnosticCodes) return []` guard never fires (a JS
array is always truthy). -/
def getCodeActions (env : ModeEnv) (doc : TextDoc) (range : LspRange)
    (contextDiagnostics : List Diagnostic) (s : ScriptModeState) :
    List CommandM × ScriptModeState :=
  let r := (updateCurrentTextDocument env doc s).1
  let s1 := (updateCurrentTextDocument env doc s).2
  let fileName := env.paths.getFileFsPath r.scriptDoc.uri
  let startOffset := offsetAt r.scriptDoc.text range.startPos
  let endOffset := offsetAt r.scriptDoc.text range.endPos
  let fixableDiagnosticCodes :=
    (contextDiagnostics.map fun d => d.code.getD 0).filter fun c =>
      env.supportedCodeFixCodes.contains c
  let formatSettings := getFormatCodeSettings env.config
  let fixes := r.service.getCodeFixesAtPosition fileName startOffset endOffset
      fixableDiagnosticCodes
  let result := collectQuickFixCommands env fixes r.service
  let refactorings := r.service.getApplicableRefactors fileName startOffset endOffset
  (result ++ collectRefactoringCommands refactorings fileName formatSettings startOffset endOffset,
    s1)

/-! ### Template-service completion patch
(`patchTemplateService`, typescriptService/serviceHost.ts, lines 568–593)

`globalScope` comes from `transformTemplate.ts` (the fixed template
global-scope allow-list); it is a parameter here. -/

def patchedGetCompletionsAtPosition (globalScope : List String)
    (original : String → Nat → Option CompletionInfoM) (fileName : String)
    (position : Nat) : Option CompletionInfoM :=
  match original fileName position with
  | none => none
  | some result =>
    if result.isMemberCompletion then some result
    else
      some { result with
        entries := result.entries.filter fun entry => globalScope.contains entry.name }

/-! ### Concrete collaborator instances (used to evaluate the theorems on
closed inputs) -/

def hostEnv0 : HostEnv :=
  { paths := idPaths
    nearestConfigFile := fun _ => some "/proj/tsconfig.json"
    projectOptionsOf := fun _ => emptyCompilerOptions
    refreshAndGet := fun d => d
    isExcludedFile := fun _ => false }

/-- A workspace whose parsed config enables `noImplicitAny`. -/
def hostEnvStrict : HostEnv :=
  { hostEnv0 with projectOptionsOf := fun _ => ⟨some true, none, none, none, none⟩ }

/-- Two directories governed by two different nearest config files. -/
def hostEnvTwoConfigs : HostEnv :=
  { hostEnv0 with
    nearestConfigFile := fun d =>
      if d = "/a" then some "/a/tsconfig.json" else some "/b/tsconfig.json" }

/-- Host state with one project loaded for `/proj`. -/
def hostStateLoaded : HostState :=
  (getProjectFromWorkingDirectory hostEnv0 "/proj" initialHostState).2

/-- … and one module resolution already cached (as `resolveModuleNames`
does after resolving an import). -/
def hostStateCached : HostState :=
  setModuleResolutionCache "./comp.vue" "/proj/app.vue" "/proj/comp.vue.ts" hostStateLoaded

/-- … after the config file is deleted (project invalidation). -/
def hostStateInvalidated : HostState :=
  deleteExternalDocument "/proj/tsconfig.json" hostStateCached

def emptyProgram : ProgramM :=
  ⟨[], fun _ => ""⟩

def lsEmpty : LanguageService :=
  { program := emptyProgram
    getCompletionsAtPosition := fun _ _ _ => none
    getCompletionEntryDetails := fun _ _ _ _ => none
    getQuickInfoAtPosition := fun _ _ => none
    getSignatureHelpItems := fun _ _ => none
    getOccurrencesAtPosition := fun _ _ => none
    getNavigationBarItems := fun _ => none
    getDefinitionAtPosition := fun _ _ => none
    getReferencesAtPosition := fun _ _ => none
    getSyntacticDiagnostics := fun _ => []
    getSemanticDiagnostics := fun _ => []
    getCodeFixesAtPosition := fun _ _ _ _ => []
    getApplicableRefactors := fun _ _ _ => [] }

/-- An engine that offers one applicable refactoring everywhere (and has an
empty root file set). -/
def lsWithRefactor : LanguageService :=
  { lsEmpty with
    getApplicableRefactors := fun _ _ _ => [⟨"extract", "Extract to function", true, []⟩] }

/-- An engine that tracks `/app/comp.vue` and offers the internal bridge
helper plus one ordinary completion. -/
def lsWithCompletions : LanguageService :=
  { lsEmpty with
    program := ⟨["/app/comp.vue"], fun _ => ""⟩
    getCompletionsAtPosition := fun _ _ _ =>
      some ⟨false,
        [⟨"__vueEditorBridge", "function", "4", none, none⟩,
         ⟨"foo", "var", "0", none, none⟩]⟩ }

def veturConfig0 : VeturConfig :=
  ⟨true, true, 2, false⟩

def modeEnv0 : ModeEnv :=
  { paths := idPaths
    jsDocumentsGet := fun d => d
    freshJsLanguageService := lsEmpty
    regionStart := fun _ => none
    config := veturConfig0
    supportedCodeFixCodes := [] }

/-- Template type-checking disabled. -/
def modeEnvNoTplCheck : ModeEnv :=
  { modeEnv0 with config := ⟨false, true, 2, false⟩ }

def modeStateRefactor : ScriptModeState :=
  ⟨none, [], [], [], lsWithRefactor, lsEmpty⟩

def modeStateEmpty : ScriptModeState :=
  ⟨none, [], [], [], lsEmpty, lsEmpty⟩

def modeStateCompletions : ScriptModeState :=
  ⟨none, [], [], [], lsWithCompletions, lsEmpty⟩

def doc0 : TextDoc :=
  ⟨"/app/comp.vue", "vue", 1, "var a = 1"⟩

def docTpl : TextDoc :=
  ⟨"/app/comp.vue.template", "vue", 1, "this.a"⟩

def pos00 : Pos :=
  ⟨0, 1⟩

def range00 : LspRange :=
  ⟨⟨0, 0⟩, ⟨0, 0⟩⟩

def itemX : CompletionItem :=
  ⟨"/app/comp.vue", ⟨0, 0⟩, "foo", "0", .variable, none, none, none, none, none⟩

/-- The completion item `doComplete` produces from the `foo` entry of
`lsWithCompletions`. -/
def fooItem : CompletionItem :=
  ⟨"/app/comp.vue", ⟨0, 1⟩, "foo", "00", .variable, none,
    some ⟨"vue", "/app/comp.vue", 1, none⟩, none, none, none⟩

def sysOneVue : SysModel :=
  ⟨fun p => p = "/b.vue", fun p => if p = "/b.vue" then some "<script>var x = 1</script>" else none⟩

/-- A stand-in for `parseVueScript`: the concrete choice is irrelevant to
the delegation behaviour under test. -/
def parseId : String → String :=
  fun t => t

def tplOriginalNonMember : String → Nat → Option CompletionInfoM :=
  fun _ _ =>
    some ⟨false, [⟨"Math", "var", "0", none, none⟩, ⟨"secret", "var", "1", none, none⟩]⟩

/-! ## Map lemmas -/

theorem lookupA_insertA_self [DecidableEq α] (l : List (α × β)) (k : α) (v : β) :
    lookupA (insertA l k v) k = some v := by
  induction l with
  | nil => simp [insertA, lookupA]
  | cons p rest ih =>
    obtain ⟨k', v'⟩ := p
    by_cases h : k' = k
    · simp [insertA, h, lookupA]
    · simp [insertA, h, lookupA, ih]

theorem lookupA_insertA_ne [DecidableEq α] (l : List (α × β)) (k q : α) (v : β)
    (h : q ≠ k) : lookupA (insertA l k v) q = lookupA l q := by
  induction l with
  | nil => simp [insertA, lookupA, Ne.symm h]
  | cons p rest ih =>
    obtain ⟨k', v'⟩ := p
    by_cases h' : k' = k
    · subst h'
      simp [insertA, lookupA, Ne.symm h]
    · simp [insertA, h', lookupA, ih]

theorem lookupA_removeA_self [DecidableEq α] (l : List (α × β)) (k : α) :
    lookupA (removeA l k) k = none := by
  induction l with
  | nil => simp [removeA, lookupA]
  | cons p rest ih =>
    obtain ⟨k', v'⟩ := p
    by_cases h : k' = k
    · simp [removeA, h, ih]
    · simp [removeA, h, lookupA, ih]

theorem lookupA_removeA_ne [DecidableEq α] (l : List (α × β)) (k q : α) (h : q ≠ k) :
    lookupA (removeA l k) q = lookupA l q := by
  induction l with
  | nil => simp [removeA]
  | cons p rest ih =>
    obtain ⟨k', v'⟩ := p
    by_cases h' : k' = k
    · subst h'
      simp [removeA, lookupA, Ne.symm h, ih]
    · simp [removeA, h', lookupA, ih]

theorem lookupA_removeAllA_of_not_mem [DecidableEq α] (keys : List α) (l : List (α × β))
    (k : α) (h : k ∉ keys) : lookupA (removeAllA l keys) k = lookupA l k := by
  induction keys generalizing l with
  | nil => rfl
  | cons k1 rest ih =>
    have hk1 : k ≠ k1 := fun he => h (he ▸ List.mem_cons_self k1 rest)
    have hrest : k ∉ rest := fun hm => h (List.mem_cons_of_mem _ hm)
    calc lookupA (removeAllA l (k1 :: rest)) k
        = lookupA (removeAllA (removeA l k1) rest) k := rfl
      _ = lookupA (removeA l k1) k := ih (removeA l k1) hrest
      _ = lookupA l k := lookupA_removeA_ne l k1 k hk1

theorem lookupA_removeAllA_of_mem [DecidableEq α] (keys : List α) (l : List (α × β))
    (k : α) (h : k ∈ keys) : lookupA (removeAllA l keys) k = none := by
  induction keys generalizing l with
  | nil => exact absurd h (List.not_mem_nil k)
  | cons k1 rest ih =>
    by_cases hrest : k ∈ rest
    · exact ih (removeA l k1) hrest
    · have hk1 : k = k1 := by
        rcases List.mem_cons.mp h with h1 | h1
        · exact h1
        · exact absurd h1 hrest
      subst hk1
      calc lookupA (removeAllA l (k :: rest)) k
          = lookupA (removeAllA (removeA l k) rest) k := rfl
        _ = lookupA (removeA l k) k := lookupA_removeAllA_of_not_mem rest _ k hrest
        _ = none := lookupA_removeA_self l k

theorem mem_addSet_self [DecidableEq α] (l : List α) (a : α) : a ∈ addSet l a := by
  unfold addSet
  split
  · assumption
  · exact List.mem_cons_self a l

theorem mem_addSet_of_mem [DecidableEq α] (l : List α) (a b : α) (h : b ∈ l) :
    b ∈ addSet l a := by
  unfold addSet
  split
  · exact h
  · exact List.mem_cons_of_mem a h

theorem mem_mapWithIndex (f : Nat → α → β) (i : Nat) (l : List α) (b : β)
    (h : b ∈ mapWithIndex f i l) : ∃ j a, a ∈ l ∧ b = f j a := by
  induction l generalizing i with
  | nil => exact absurd h (List.not_mem_nil b)
  | cons x rest ih =>
    rcases List.mem_cons.mp h with h1 | h1
    · exact ⟨i, x, List.mem_cons_self x rest, h1⟩
    · obtain ⟨j, a, ha, hb⟩ := ih (i + 1) h1
      exact ⟨j, a, List.mem_cons_of_mem x ha, hb⟩

/-! ## Service-host bookkeeping lemmas -/

theorem gocp_state_preserved (env : HostEnv) (d : String) (s : HostState) :
    ((getOrCreateProject env d s).2).versions = s.versions ∧
    ((getOrCreateProject env d s).2).projectVersion = s.projectVersion ∧
    ((getOrCreateProject env d s).2).currentScriptDoc = s.currentScriptDoc ∧
    ((getOrCreateProject env d s).2).localScriptRegionDocuments = s.localScriptRegionDocuments ∧
    ((getOrCreateProject env d s).2).moduleResolutionCache = s.moduleResolutionCache ∧
    ((getOrCreateProject env d s).2).scriptFileNameSet = s.scriptFileNameSet := by
  cases h : lookupA s.projectsLanguageServices (env.nearestConfigFile d) <;>
    simp [getOrCreateProject, h]

theorem gpfwd_state_preserved (env : HostEnv) (d : String) (s : HostState) :
    ((getProjectFromWorkingDirectory env d s).2).versions = s.versions ∧
    ((getProjectFromWorkingDirectory env d s).2).projectVersion = s.projectVersion ∧
    ((getProjectFromWorkingDirectory env d s).2).currentScriptDoc = s.currentScriptDoc ∧
    ((getProjectFromWorkingDirectory env d s).2).localScriptRegionDocuments
      = s.localScriptRegionDocuments ∧
    ((getProjectFromWorkingDirectory env d s).2).moduleResolutionCache
      = s.moduleResolutionCache ∧
    ((getProjectFromWorkingDirectory env d s).2).scriptFileNameSet = s.scriptFileNameSet := by
  obtain ⟨h1, h2, h3, h4, h5, h6⟩ := gocp_state_preserved env d s
  cases h : lookupA s.directoryToProjects d <;>
    simp [getProjectFromWorkingDirectory, h, h1, h2, h3, h4, h5, h6]

theorem gocp_hit (env : HostEnv) (d : String) (s : HostState) (pid : Nat)
    (h : lookupA s.projectsLanguageServices (env.nearestConfigFile d) = some pid) :
    getOrCreateProject env d s = (pid, s) := by
  simp [getOrCreateProject, h]

theorem gocp_miss_fst (env : HostEnv) (d : String) (s : HostState)
    (h : lookupA s.projectsLanguageServices (env.nearestConfigFile d) = none) :
    (getOrCreateProject env d s).1 = s.nextId := by
  simp [getOrCreateProject, h]

theorem gpfwd_cached (env : HostEnv) (d : String) (s : HostState) (pid : Nat)
    (h : lookupA s.directoryToProjects d = some pid) :
    getProjectFromWorkingDirectory env d s = (pid, s) := by
  simp [getProjectFromWorkingDirectory, h]

theorem gpfwd_miss_fst (env : HostEnv) (d : String) (s : HostState)
    (h : lookupA s.directoryToProjects d = none) :
    (getProjectFromWorkingDirectory env d s).1 = (getOrCreateProject env d s).1 := by
  simp [getProjectFromWorkingDirectory, h]

/-! ## Claim theorems -/

/-- C2 (amended): every project created by the registry's
`getOrCreateProject` carries two language services sharing the host's one
document registry, and its template-service compiler options are the
script options with the unused-symbol checks disabled (`noUnusedLocals`,
`noUnusedParameters` forced off); implicit-any checking is NOT relaxed —
`noImplicitAny` is carried over unchanged from the script options. -/
theorem c2_amended_templateOptions (env : HostEnv) (wd : String) (s : HostState)
    (h : lookupA s.projectsLanguageServices (env.nearestConfigFile wd) = none) :
    ∃ p : VProject,
      lookupA ((getOrCreateProject env wd s).2).projectStore
          ((getOrCreateProject env wd s).1) = some p ∧
      p.jsRegistryId = p.templateRegistryId ∧
      p.templateOptions = templateServiceOptions p.options ∧
      p.templateOptions.noUnusedLocals = some false ∧
      p.templateOptions.noUnusedParameters = some false ∧
      p.templateOptions.noImplicitAny = p.options.noImplicitAny := by
  refine ⟨⟨env.projectOptionsOf (env.nearestConfigFile wd),
      templateServiceOptions (env.projectOptionsOf (env.nearestConfigFile wd)),
      s.nextId + 1, s.nextId + 2, s.registryId, s.registryId, []⟩, ?_, rfl, rfl, rfl, rfl, rfl⟩
  simp [getOrCreateProject, h, lookupA_insertA_self]

/-- C2 witness: creating the project for `/proj` in a fresh host yields a
project whose template options relax exactly the unused-symbol checks. -/
theorem c2_witness :
    lookupA initialHostState.projectsLanguageServices (hostEnv0.nearestConfigFile "/proj")
        = none ∧
      ∃ p : VProject,
        lookupA ((getOrCreateProject hostEnv0 "/proj" initialHostState).2).projectStore
            ((getOrCreateProject hostEnv0 "/proj" initialHostState).1) = some p ∧
        p.jsRegistryId = p.templateRegistryId ∧
        p.templateOptions = templateServiceOptions p.options ∧
        p.templateOptions.noUnusedLocals = some false ∧
        p.templateOptions.noUnusedParameters = some false ∧
        p.templateOptions.noImplicitAny = p.options.noImplicitAny :=
  ⟨rfl, c2_amended_templateOptions hostEnv0 "/proj" initialHostState rfl⟩

/-- C2 counterexample: under a config whose parsed options set
`noImplicitAny := true`, the created project's template-service options
still have `noImplicitAny = some true` — implicit-any checking is not
disabled for the template instance, contradicting the claim. -/
theorem c2_counterexample :
    ((lookupA ((getOrCreateProject hostEnvStrict "/proj" initialHostState).2).projectStore
          ((getOrCreateProject hostEnvStrict "/proj" initialHostState).1)).map
        (fun p => p.templateOptions.noImplicitAny)) = some (some true) ∧
      (some (some true) : Option (Option Bool)) ≠ some (some false) := by
  constructor
  · rfl
  · decide

/-- C10: updating a virtual template document
(`updateCurrentVirtualVueTextDocument`) strictly increments that file's
version counter (absent counters count as 0) and the global project
version, unconditionally — no comparison with the previously seen
(uri, version) is made — and leaves every other file's version entry
untouched. -/
theorem c10_virtualTemplateUpdateIncrements (env : HostEnv) (doc : TextDoc)
    (cc : Option (List String)) (s : HostState)
    (h : isVirtualVueTemplateFile (env.paths.getFileFsPath doc.uri) = true) :
    lookupA ((updateCurrentVirtualVueTextDocument env doc cc s).2).versions
        (env.paths.getFileFsPath doc.uri)
      = some ((lookupA s.versions (env.paths.getFileFsPath doc.uri)).getD 0 + 1) ∧
    ((updateCurrentVirtualVueTextDocument env doc cc s).2).projectVersion
      = s.projectVersion + 1 ∧
    ∀ g, g ≠ env.paths.getFileFsPath doc.uri →
      lookupA ((updateCurrentVirtualVueTextDocument env doc cc s).2).versions g
        = lookupA s.versions g := by
  unfold updateCurrentVirtualVueTextDocument
  simp only [h, if_true]
  split
  all_goals (
    refine ⟨?_, ?_, ?_⟩
    · rw [(gpfwd_state_preserved env _ _).1]
      exact lookupA_insertA_self _ _ _
    · rw [(gpfwd_state_preserved env _ _).2.1]
    · intro g hg
      rw [(gpfwd_state_preserved env _ _).1]
      exact lookupA_insertA_ne _ _ _ _ hg)

/-- After `updateCurrentVueTextDocument`, the stored current script document
matches the processed document's identity and version (provided the
script-region cache preserves uri and version, which the collaborating
`updatedScriptRegionDocuments` cache does). -/
theorem ucvtd_current_matches (env : HostEnv) (doc : TextDoc) (s : HostState)
    (hU : (env.refreshAndGet doc).uri = doc.uri)
    (hV : (env.refreshAndGet doc).version = doc.version) :
    ∃ c, ((updateCurrentVueTextDocument env doc s).2).currentScriptDoc = some c ∧
      c.uri = doc.uri ∧ c.version = doc.version := by
  have hcur := fun (d : String) (s' : HostState) =>
    (gpfwd_state_preserved env d s').2.2.1
  simp only [updateCurrentVueTextDocument]
  split
  all_goals (
    simp only [hcur]
    cases hsc : s.currentScriptDoc with
    | none => exact ⟨env.refreshAndGet doc, by simp [hsc], hU, hV⟩
    | some c =>
      by_cases h1 : doc.uri = c.uri <;> by_cases h2 : doc.version = c.version
      · exact ⟨c, by simp [hsc, h1, h2, hcur], h1.symm, h2.symm⟩
      · exact ⟨env.refreshAndGet doc, by simp [hsc, h1, h2], hU, hV⟩
      · exact ⟨env.refreshAndGet doc, by simp [hsc, h1, h2], hU, hV⟩
      · exact ⟨env.refreshAndGet doc, by simp [hsc, h1, h2], hU, hV⟩)

/-- When the stored current script document already matches the incoming
document's identity and version, `updateCurrentVueTextDocument` performs no
refresh: the version map, the project version, the current script document
and the stored script-region documents are unchanged. -/
theorem ucvtd_noRefresh (env : HostEnv) (doc : TextDoc) (s : HostState) (c : TextDoc)
    (hc : s.currentScriptDoc = some c) (hu : c.uri = doc.uri) (hv : c.version = doc.version) :
    ((updateCurrentVueTextDocument env doc s).2).versions = s.versions ∧
    ((updateCurrentVueTextDocument env doc s).2).projectVersion = s.projectVersion ∧
    ((updateCurrentVueTextDocument env doc s).2).currentScriptDoc = s.currentScriptDoc ∧
    ((updateCurrentVueTextDocument env doc s).2).localScriptRegionDocuments
      = s.localScriptRegionDocuments := by
  have hdir := fun s' =>
    gpfwd_state_preserved env
      (env.paths.getDirectoryName (env.paths.getFileFsPath doc.uri)) s'
  have hver := fun s' => (hdir s').1
  have hpv := fun s' => (hdir s').2.1
  have hcur := fun s' => (hdir s').2.2.1
  have hloc := fun s' => (hdir s').2.2.2.1
  simp only [updateCurrentVueTextDocument]
  split <;> simp [hc, hu, hv, hver, hpv, hcur, hloc]

/-- C7: updating the current script document is idempotent per
(document identity, version): a second `updateCurrentVueTextDocument` call
with the same uri and version performs no refresh — the per-file version
counters, the global project version, the current script document and the
stored script-region documents are exactly those produced by the first
call. (Hypotheses: the collaborating script-region cache `refreshAndGet`
preserves the document's uri and version.) -/
theorem c7_scriptDocumentUpdateIdempotent (env : HostEnv) (doc : TextDoc) (s : HostState)
    (hU : (env.refreshAndGet doc).uri = doc.uri)
    (hV : (env.refreshAndGet doc).version = doc.version) :
    ((updateCurrentVueTextDocument env doc
        ((updateCurrentVueTextDocument env doc s).2)).2).versions
      = ((updateCurrentVueTextDocument env doc s).2).versions ∧
    ((updateCurrentVueTextDocument env doc
        ((updateCurrentVueTextDocument env doc s).2)).2).projectVersion
      = ((updateCurrentVueTextDocument env doc s).2).projectVersion ∧
    ((updateCurrentVueTextDocument env doc
        ((updateCurrentVueTextDocument env doc s).2)).2).currentScriptDoc
      = ((updateCurrentVueTextDocument env doc s).2).currentScriptDoc ∧
    ((updateCurrentVueTextDocument env doc
        ((updateCurrentVueTextDocument env doc s).2)).2).localScriptRegionDocuments
      = ((updateCurrentVueTextDocument env doc s).2).localScriptRegionDocuments := by
  obtain ⟨c, hc, hu, hv⟩ := ucvtd_current_matches env doc s hU hV
  exact ucvtd_noRefresh env doc _ c hc hu hv

/-- C7 witness: with an identity script-region cache, the second update of
`/app/comp.vue` at version 1 changes none of the tracked state. -/
theorem c7_witness :
    (hostEnv0.refreshAndGet doc0).uri = doc0.uri ∧
      (hostEnv0.refreshAndGet doc0).version = doc0.version ∧
      ((updateCurrentVueTextDocument hostEnv0 doc0
          ((updateCurrentVueTextDocument hostEnv0 doc0 initialHostState).2)).2).versions
        = ((updateCurrentVueTextDocument hostEnv0 doc0 initialHostState).2).versions ∧
      ((updateCurrentVueTextDocument hostEnv0 doc0
          ((updateCurrentVueTextDocument hostEnv0 doc0 initialHostState).2)).2).projectVersion
        = ((updateCurrentVueTextDocument hostEnv0 doc0 initialHostState).2).projectVersion :=
  ⟨rfl, rfl,
    (c7_scriptDocumentUpdateIdempotent hostEnv0 doc0 initialHostState rfl rfl).1,
    (c7_scriptDocumentUpdateIdempotent hostEnv0 doc0 initialHostState rfl rfl).2.1⟩

/-- A path carrying the template-suffix marker cannot also carry the
script-suffix marker. -/
theorem endsWith_template_not_ts (p : String) (h : strEndsWith p ".vue.template" = true) :
    strEndsWith p ".vue.ts" = false := by
  by_contra hc
  rw [Bool.not_eq_false] at hc
  simp only [strEndsWith] at h hc
  have h1 : ".vue.template".data <:+ p.data := List.isSuffixOf_iff_suffix.mp h
  have h2 : ".vue.ts".data <:+ p.data := List.isSuffixOf_iff_suffix.mp hc
  rcases List.suffix_or_suffix_of_suffix h1 h2 with hs | hs
  · exact absurd (List.isSuffixOf_iff_suffix.mpr hs) (by decide)
  · exact absurd (List.isSuffixOf_iff_suffix.mpr hs) (by decide)

/-- C5 (amended): for virtual script paths (`.vue.ts` outside
`node_modules`), `fileExists` answers according to the underlying composite
file's existence and `readFile` returns `parseVueScript` (the script-region
extraction) of the composite file's text (the empty/none cases passed
through unchanged, as in the source's truthiness test); for virtual
template paths (`.vue.template`), `fileExists` delegates the same way but
`readFile` returns the underlying composite file's text verbatim — NOT the
template-transformed content (the transform is applied later, at
script-snapshot time). -/
theorem c5_virtualPathDelegation (parseVueScript : String → String) (sys : SysModel)
    (p : String) :
    (isVirtualVueFile p = true →
      vueSysFileExists sys p = sys.fileExists (strTake p (p.data.length - 3)) ∧
      ∀ t, sys.readFile (strTake p (p.data.length - 3)) = some t →
        vueSysReadFile parseVueScript sys p
          = some (if t = "" then t else parseVueScript t)) ∧
    (isVirtualVueTemplateFile p = true →
      vueSysFileExists sys p = sys.fileExists (strTake p (p.data.length - 9)) ∧
      vueSysReadFile parseVueScript sys p
        = sys.readFile (strTake p (p.data.length - 9))) := by
  constructor
  · intro h
    constructor
    · simp [vueSysFileExists, h]
    · intro t ht
      simp only [vueSysReadFile, h, if_true, ht]
      by_cases hte : t = "" <;> simp [hte]
  · intro h
    have hts : strEndsWith p ".vue.ts" = false :=
      endsWith_template_not_ts p (by simpa [isVirtualVueTemplateFile] using h)
    have hvf : isVirtualVueFile p = false := by
      simp [isVirtualVueFile, hts]
    constructor
    · simp [vueSysFileExists, hvf, h]
    · simp [vueSysReadFile, hvf, h]

/-- C5 witness: for `/b.vue.template` the virtual filesystem delegates
existence to `/b.vue` and returns its raw text. -/
theorem c5_witness :
    isVirtualVueTemplateFile "/b.vue.template" = true ∧
      vueSysFileExists sysOneVue "/b.vue.template"
          = sysOneVue.fileExists (strTake "/b.vue.template"
              ("/b.vue.template".data.length - 9)) ∧
        vueSysReadFile parseId sysOneVue "/b.vue.template"
          = sysOneVue.readFile (strTake "/b.vue.template"
              ("/b.vue.template".data.length - 9)) :=
  ⟨by decide, (c5_virtualPathDelegation parseId sysOneVue "/b.vue.template").2 (by decide)⟩

/-- C5 counterexample: `/b.vue` holds `<script>var x = 1</script>`, which
has no template region, so the spec's template transform yields the empty
virtual text; yet reading the virtual template path returns the raw
composite text — not the template-transformed content — refuting the
claim's template-path clause. -/
theorem c5_counterexample :
    isVirtualVueTemplateFile "/b.vue.template" = true ∧
      specTemplateTransform "<script>var x = 1</script>" = some "" ∧
      vueSysReadFile parseId sysOneVue "/b.vue.template"
        = some "<script>var x = 1</script>" ∧
      (some "<script>var x = 1</script>" : Option String) ≠ some "" := by
  refine ⟨by decide, by decide, by decide, by decide⟩

/-- The services handed out by `updateCurrentTextDocument`: the js service
is either the stored one or a freshly created one (languageId-changed
restart); the template service is always the stored one, and the same holds
of the resulting state. -/
theorem uctd_services (env : ModeEnv) (doc : TextDoc) (s : ScriptModeState) :
    ((updateCurrentTextDocument env doc s).1.service = s.jsLanguageService ∨
      (updateCurrentTextDocument env doc s).1.service = env.freshJsLanguageService) ∧
    (updateCurrentTextDocument env doc s).1.templateService = s.templateLanguageService ∧
    ((updateCurrentTextDocument env doc s).2.jsLanguageService = s.jsLanguageService ∨
      (updateCurrentTextDocument env doc s).2.jsLanguageService
        = env.freshJsLanguageService) ∧
    (updateCurrentTextDocument env doc s).2.templateLanguageService
      = s.templateLanguageService := by
  simp only [updateCurrentTextDocument]
  repeat' split
  all_goals simp

/-- If neither the stored js service nor a freshly created one tracks the
file, the root-file guard fails after `updateCurrentTextDocument`. -/
theorem uctd_guard_false (env : ModeEnv) (doc : TextDoc) (s' : ScriptModeState)
    (uri : String)
    (hjs : s'.jsLanguageService.program.rootFileNames.contains
        (env.paths.getFilePath uri) = false)
    (hfresh : env.freshJsLanguageService.program.rootFileNames.contains
        (env.paths.getFilePath uri) = false) :
    languageServiceIncludesFile env ((updateCurrentTextDocument env doc s').1.service) uri
      = false := by
  rcases (uctd_services env doc s').1 with h | h <;>
    simp only [languageServiceIncludesFile, h] <;> assumption

/-- C3 (amended): for a document whose file the engine program's root file
set does not include (neither in the current js service, a freshly
restarted one, nor — for the `.template` identity — the template service),
the operations validate, complete, resolveCompletion, hover, signatureHelp,
documentHighlight, documentSymbols, findDefinition and findReferences all
return their defined empty/default values and surface no error. The
remaining two operations of the claim — codeActions and format — perform no
such root-file check (see the counterexample). -/
theorem c3_amended_recoverableEmpty (env : ModeEnv) (doc : TextDoc) (position : Pos)
    (item : CompletionItem) (s : ScriptModeState)
    (hJs : s.jsLanguageService.program.rootFileNames.contains
        (env.paths.getFilePath doc.uri) = false)
    (hJsF : env.freshJsLanguageService.program.rootFileNames.contains
        (env.paths.getFilePath doc.uri) = false)
    (hTpl : s.templateLanguageService.program.rootFileNames.contains
        (env.paths.getFilePath (doc.uri ++ ".template")) = false) :
    (doValidation env doc s).1 = [] ∧
    (doComplete env doc position s).1 = ⟨false, []⟩ ∧
    (doResolve env doc item s).1 = item ∧
    (doHover env doc position s).1 = ⟨none, []⟩ ∧
    (doSignatureHelp env doc position s).1 = nullSignature ∧
    (findDocumentHighlight env doc position s).1 = [] ∧
    (findDocumentSymbols env doc s).1 = [] ∧
    (findDefinition env doc position s).1 = [] ∧
    (findReferences env doc position s).1 = [] := by
  have hg := uctd_guard_false env doc s doc.uri hJs hJsF
  have hts :=
    (uctd_services env ⟨doc.uri ++ ".template", doc.languageId, doc.version, doc.text⟩ s).2.1
  have hgt : languageServiceIncludesFile env
      ((updateCurrentTextDocument env
        ⟨doc.uri ++ ".template", doc.languageId, doc.version, doc.text⟩ s).1.templateService)
      (doc.uri ++ ".template") = false := by
    simp only [languageServiceIncludesFile, hts]
    exact hTpl
  have ht1 : (getTemplateDiagnostics env doc s).1 = [] := by
    simp only [getTemplateDiagnostics]
    split
    · rfl
    · simp [hgt]
  have hjs1 : (getTemplateDiagnostics env doc s).2.jsLanguageService = s.jsLanguageService ∨
      (getTemplateDiagnostics env doc s).2.jsLanguageService = env.freshJsLanguageService := by
    simp only [getTemplateDiagnostics]
    split
    · exact Or.inl rfl
    · exact (uctd_services env _ s).2.2.1
  have hg2 : languageServiceIncludesFile env
      ((updateCurrentTextDocument env doc ((getTemplateDiagnostics env doc s).2)).1.service)
      doc.uri = false := by
    apply uctd_guard_false env doc _ doc.uri _ hJsF
    rcases hjs1 with h | h <;> rw [h]
    · exact hJs
    · exact hJsF
  have hsd : (getScriptDiagnostics env doc ((getTemplateDiagnostics env doc s).2)).1 = [] := by
    simp only [getScriptDiagnostics]
    simp [hg2]
  refine ⟨?_, ?_, ?_, ?_, ?_, ?_, ?_, ?_, ?_⟩
  · show (getTemplateDiagnostics env doc s).1
        ++ (getScriptDiagnostics env doc ((getTemplateDiagnostics env doc s).2)).1 = []
    rw [ht1, hsd]
    rfl
  · simp only [doComplete]
    simp [hg]
  · simp only [doResolve]
    simp [hg]
  · simp only [doHover]
    simp [hg]
  · simp only [doSignatureHelp]
    simp [hg]
  · simp only [findDocumentHighlight]
    simp [hg]
  · simp only [findDocumentSymbols]
    simp [hg]
  · simp only [findDefinition]
    simp [hg]
  · simp only [findReferences]
    simp [hg]

/-- C3 witness: against an engine with an empty root file set, all nine
guarded operations return their empty defaults for `/app/comp.vue`. -/
theorem c3_witness :
    modeStateEmpty.jsLanguageService.program.rootFileNames.contains
        (modeEnv0.paths.getFilePath doc0.uri) = false ∧
      modeEnv0.freshJsLanguageService.program.rootFileNames.contains
        (modeEnv0.paths.getFilePath doc0.uri) = false ∧
      modeStateEmpty.templateLanguageService.program.rootFileNames.contains
        (modeEnv0.paths.getFilePath (doc0.uri ++ ".template")) = false ∧
      ((doValidation modeEnv0 doc0 modeStateEmpty).1 = [] ∧
        (doComplete modeEnv0 doc0 pos00 modeStateEmpty).1 = ⟨false, []⟩ ∧
        (doResolve modeEnv0 doc0 itemX modeStateEmpty).1 = itemX ∧
        (doHover modeEnv0 doc0 pos00 modeStateEmpty).1 = ⟨none, []⟩ ∧
        (doSignatureHelp modeEnv0 doc0 pos00 modeStateEmpty).1 = nullSignature ∧
        (findDocumentHighlight modeEnv0 doc0 pos00 modeStateEmpty).1 = [] ∧
        (findDocumentSymbols modeEnv0 doc0 modeStateEmpty).1 = [] ∧
        (findDefinition modeEnv0 doc0 pos00 modeStateEmpty).1 = [] ∧
        (findReferences modeEnv0 doc0 pos00 modeStateEmpty).1 = []) :=
  ⟨by decide, by decide, by decide,
    c3_amended_recoverableEmpty modeEnv0 doc0 pos00 itemX modeStateEmpty
      (by decide) (by decide) (by decide)⟩

/-- C3 counterexample: `getCodeActions` performs no root-file check — for a
document whose file is NOT in the engine program's root file set it still
invokes the engine and here returns a non-empty command list instead of
the operation's defined empty value, refuting the claim for the codeActions
operation. -/
theorem c3_counterexample :
    languageServiceIncludesFile modeEnv0 modeStateRefactor.jsLanguageService doc0.uri
        = false ∧
      (getCodeActions modeEnv0 doc0 range00 [] modeStateRefactor).1 ≠ [] := by
  refine ⟨by decide, ?_⟩
  decide

/-- `updateExternalDocument` never touches the host-level module resolution
cache. -/
theorem updateExternalDocument_cache (env : HostEnv) (f : String) (s : HostState) :
    (updateExternalDocument env f s).moduleResolutionCache = s.moduleResolutionCache := by
  simp only [updateExternalDocument]
  repeat' split
  all_goals rfl

/-- `deleteExternalDocument` never touches the host-level module resolution
cache nor the allocation counter. -/
theorem deleteExternalDocument_cache_nextId (f : String) (s : HostState) :
    (deleteExternalDocument f s).moduleResolutionCache = s.moduleResolutionCache ∧
    (deleteExternalDocument f s).nextId = s.nextId := by
  unfold deleteExternalDocument
  repeat' split
  all_goals exact ⟨rfl, rfl⟩

/-- C1 (amended): after `deleteExternalDocument` invalidates a loaded
configuration path, the next `getProjectFromWorkingDirectory` under one of
its directories constructs a new Project (a fresh identity, distinct from
the disposed project's); the Module Resolution Cache, however, is scoped
per service host — shared by all Projects — and is left entirely untouched
both by the invalidation (`deleteExternalDocument`, and
`updateExternalDocument` likewise) and by the re-creation. -/
theorem c1_amended_invalidation (env : HostEnv) (s : HostState) (cfg d : String)
    (pid : Nat) (proj : VProject)
    (hcfg : lookupA s.projectsLanguageServices (some cfg) = some pid)
    (hstore : lookupA s.projectStore pid = some proj)
    (hdirs : lookupA s.directoryToProjects d = none ∨
      (lookupA s.directoryToProjects d = some pid ∧ d ∈ proj.attachedDirectories))
    (hnear : env.nearestConfigFile d = some cfg)
    (hlt : pid < s.nextId) :
    (deleteExternalDocument cfg s).moduleResolutionCache = s.moduleResolutionCache ∧
    (getProjectFromWorkingDirectory env d (deleteExternalDocument cfg s)).1 = s.nextId ∧
    (getProjectFromWorkingDirectory env d (deleteExternalDocument cfg s)).1 ≠ pid ∧
    ((getProjectFromWorkingDirectory env d
        (deleteExternalDocument cfg s)).2).moduleResolutionCache
      = s.moduleResolutionCache ∧
    ∀ f, (updateExternalDocument env f s).moduleResolutionCache
      = s.moduleResolutionCache := by
  have hdel : deleteExternalDocument cfg s
      = { s with
          projectsLanguageServices := removeA s.projectsLanguageServices (some cfg)
          directoryToProjects := removeAllA s.directoryToProjects proj.attachedDirectories
          projectStore := insertA s.projectStore pid { proj with attachedDirectories := [] } } := by
    simp [deleteExternalDocument, hcfg, hstore]
  have hdirnone : lookupA (removeAllA s.directoryToProjects proj.attachedDirectories) d
      = none := by
    by_cases hmem : d ∈ proj.attachedDirectories
    · exact lookupA_removeAllA_of_mem _ _ _ hmem
    · rw [lookupA_removeAllA_of_not_mem _ _ _ hmem]
      rcases hdirs with hq | ⟨hq, hin⟩
      · exact hq
      · exact absurd hin hmem
  have hplsnone : lookupA (removeA s.projectsLanguageServices (some cfg))
      (env.nearestConfigFile d) = none := by
    rw [hnear]
    exact lookupA_removeA_self _ _
  have hfresh : (getProjectFromWorkingDirectory env d (deleteExternalDocument cfg s)).1
      = s.nextId := by
    rw [hdel]
    rw [gpfwd_miss_fst env d _ hdirnone]
    rw [gocp_miss_fst env d _ hplsnone]
  refine ⟨by rw [hdel], hfresh, ?_, ?_, fun f => updateExternalDocument_cache env f s⟩
  · rw [hfresh]
    omega
  · rw [hdel, (gpfwd_state_preserved env d _).2.2.2.2.1]

/-- C1 witness: a loaded project for `/proj` with one cached module
resolution; deleting its config file and looking `/proj` up again
constructs project identity 4 (the old one was 1) while the host cache is
untouched. -/
theorem c1_witness :
    (lookupA hostStateCached.projectsLanguageServices (some "/proj/tsconfig.json")
          = some 1 ∧
        (lookupA hostStateCached.projectStore 1).isSome = true ∧
        hostEnv0.nearestConfigFile "/proj" = some "/proj/tsconfig.json" ∧
        1 < hostStateCached.nextId) ∧
      (getProjectFromWorkingDirectory hostEnv0 "/proj"
          (deleteExternalDocument "/proj/tsconfig.json" hostStateCached)).1
        = hostStateCached.nextId ∧
      ((getProjectFromWorkingDirectory hostEnv0 "/proj"
          (deleteExternalDocument "/proj/tsconfig.json" hostStateCached)).2).moduleResolutionCache
        = hostStateCached.moduleResolutionCache :=
  ⟨⟨by decide, by decide, by decide, by decide⟩,
    (c1_amended_invalidation hostEnv0 hostStateCached "/proj/tsconfig.json" "/proj" 1
      ⟨emptyCompilerOptions, templateServiceOptions emptyCompilerOptions, 2, 3, 0, 0, ["/proj"]⟩
      (by decide) (by decide) (Or.inr ⟨by decide, by decide⟩) (by decide) (by decide)).2.1,
    (c1_amended_invalidation hostEnv0 hostStateCached "/proj/tsconfig.json" "/proj" 1
      ⟨emptyCompilerOptions, templateServiceOptions emptyCompilerOptions, 2, 3, 0, 0, ["/proj"]⟩
      (by decide) (by decide) (Or.inr ⟨by decide, by decide⟩) (by decide) (by decide)).2.2.2.1⟩

/-- C1 counterexample: with one resolution cached, invalidating
`/proj/tsconfig.json` and re-running the project lookup yields a state
whose Module Resolution Cache is NOT fresh and empty — it still holds the
pre-invalidation entry — even though a new Project (identity 4, not the
disposed 1) was constructed. -/
theorem c1_counterexample :
    ((getProjectFromWorkingDirectory hostEnv0 "/proj"
        hostStateInvalidated).2).moduleResolutionCache ≠ [] ∧
      ((getProjectFromWorkingDirectory hostEnv0 "/proj"
          hostStateInvalidated).2).moduleResolutionCache
        = hostStateCached.moduleResolutionCache ∧
      (getProjectFromWorkingDirectory hostEnv0 "/proj" hostStateInvalidated).1
        ≠ (getProjectFromWorkingDirectory hostEnv0 "/proj" initialHostState).1 := by
  refine ⟨?_, ?_, ?_⟩ <;> decide

/-- C4: starting from a fresh registry, looking two working directories up
with `getProjectFromWorkingDirectory` yields the identical project
(identity-equal, i.e. the same heap object) exactly when their nearest
configuration files coincide — distinct projects when they differ — and
each directory ends up in its project's attached-directories set. -/
theorem c4_projectReuse (env : HostEnv) (d1 d2 : String) :
    ((env.nearestConfigFile d1 = env.nearestConfigFile d2) →
      (getProjectFromWorkingDirectory env d2
          (getProjectFromWorkingDirectory env d1 initialHostState).2).1
        = (getProjectFromWorkingDirectory env d1 initialHostState).1) ∧
    ((env.nearestConfigFile d1 ≠ env.nearestConfigFile d2) →
      (getProjectFromWorkingDirectory env d2
          (getProjectFromWorkingDirectory env d1 initialHostState).2).1
        ≠ (getProjectFromWorkingDirectory env d1 initialHostState).1) ∧
    d1 ∈ attachedDirectoriesOf
        (getProjectFromWorkingDirectory env d2
          (getProjectFromWorkingDirectory env d1 initialHostState).2).2
        (getProjectFromWorkingDirectory env d1 initialHostState).1 ∧
    d2 ∈ attachedDirectoriesOf
        (getProjectFromWorkingDirectory env d2
          (getProjectFromWorkingDirectory env d1 initialHostState).2).2
        (getProjectFromWorkingDirectory env d2
          (getProjectFromWorkingDirectory env d1 initialHostState).2).1 := by
  by_cases hd : d1 = d2
  · subst hd
    simp [getProjectFromWorkingDirectory, getOrCreateProject, initialHostState, lookupA,
      insertA, addSet, attachedDirectoriesOf]
  · by_cases hc : env.nearestConfigFile d1 = env.nearestConfigFile d2
    · simp [getProjectFromWorkingDirectory, getOrCreateProject, initialHostState, lookupA,
        insertA, addSet, attachedDirectoriesOf, hd, Ne.symm hd, hc]
    · simp [getProjectFromWorkingDirectory, getOrCreateProject, initialHostState, lookupA,
        insertA, addSet, attachedDirectoriesOf, hd, Ne.symm hd, hc]

/-- C4 witness: `/d1` and `/d2` under one config resolve to the same
project; `/a` and `/b` under different configs resolve to distinct ones. -/
theorem c4_witness :
    hostEnv0.nearestConfigFile "/d1" = hostEnv0.nearestConfigFile "/d2" ∧
      (getProjectFromWorkingDirectory hostEnv0 "/d2"
          (getProjectFromWorkingDirectory hostEnv0 "/d1" initialHostState).2).1
        = (getProjectFromWorkingDirectory hostEnv0 "/d1" initialHostState).1 ∧
      hostEnvTwoConfigs.nearestConfigFile "/a" ≠ hostEnvTwoConfigs.nearestConfigFile "/b" ∧
      (getProjectFromWorkingDirectory hostEnvTwoConfigs "/b"
          (getProjectFromWorkingDirectory hostEnvTwoConfigs "/a" initialHostState).2).1
        ≠ (getProjectFromWorkingDirectory hostEnvTwoConfigs "/a" initialHostState).1 :=
  ⟨by decide,
    (c4_projectReuse hostEnv0 "/d1" "/d2").1 (by decide),
    by decide,
    (c4_projectReuse hostEnvTwoConfigs "/a" "/b").2.1 (by decide)⟩

/-- C10 witness: updating `/app/comp.vue.template` on a fresh host sets its
version counter to 1 and the project version to 2, touching no other
entry. -/
theorem c10_witness :
    isVirtualVueTemplateFile (hostEnv0.paths.getFileFsPath docTpl.uri) = true ∧
      lookupA ((updateCurrentVirtualVueTextDocument hostEnv0 docTpl none
            initialHostState).2).versions (hostEnv0.paths.getFileFsPath docTpl.uri)
        = some ((lookupA initialHostState.versions
            (hostEnv0.paths.getFileFsPath docTpl.uri)).getD 0 + 1) ∧
      ((updateCurrentVirtualVueTextDocument hostEnv0 docTpl none
          initialHostState).2).projectVersion = initialHostState.projectVersion + 1 :=
  ⟨by decide,
    (c10_virtualTemplateUpdateIncrements hostEnv0 docTpl none initialHostState (by decide)).1,
    (c10_virtualTemplateUpdateIncrements hostEnv0 docTpl none initialHostState (by decide)).2.1⟩

/-- C9: a completion query against the patched template language service
(`patchTemplateService`): when the underlying result is not a member
completion, every entry of the returned list has a name in the template
global-scope allow-list (and the result stays a non-member completion);
when it is a member completion, the result is returned unfiltered. -/
theorem c9_templateCompletionsFiltered (globalScope : List String)
    (original : String → Nat → Option CompletionInfoM) (fileName : String)
    (position : Nat) (res : CompletionInfoM) (h : original fileName position = some res) :
    (res.isMemberCompletion = true →
      patchedGetCompletionsAtPosition globalScope original fileName position = some res) ∧
    (res.isMemberCompletion = false →
      ∀ r, patchedGetCompletionsAtPosition globalScope original fileName position = some r →
        r.isMemberCompletion = false ∧
        ∀ e ∈ r.entries, globalScope.contains e.name = true) := by
  constructor
  · intro hm
    simp [patchedGetCompletionsAtPosition, h, hm]
  · intro hm r hr
    simp only [patchedGetCompletionsAtPosition, h, hm] at hr
    simp only [Bool.false_eq_true, if_false, Option.some.injEq] at hr
    subst hr
    refine ⟨rfl, ?_⟩
    intro e he
    exact (List.mem_filter.mp he).2

/-- C9 witness: with allow-list `["Math"]` and a non-member underlying
result offering `Math` and `secret`, every returned entry is allow-listed. -/
theorem c9_witness :
    tplOriginalNonMember "/a.vue.template" 0
        = some ⟨false, [⟨"Math", "var", "0", none, none⟩, ⟨"secret", "var", "1", none, none⟩]⟩ ∧
      ∀ r, patchedGetCompletionsAtPosition ["Math"] tplOriginalNonMember "/a.vue.template" 0
          = some r →
        r.isMemberCompletion = false ∧ ∀ e ∈ r.entries, (["Math"]).contains e.name = true :=
  ⟨rfl,
    (c9_templateCompletionsFiltered ["Math"] tplOriginalNonMember "/a.vue.template" 0
      ⟨false, [⟨"Math", "var", "0", none, none⟩, ⟨"secret", "var", "1", none, none⟩]⟩ rfl).2 rfl⟩

/-- C6: `doValidation` returns the template-derived diagnostics list
concatenated (in that order) with the script-derived diagnostics list, as
one list; when the template type-checking setting is off, the
template-derived part is empty and the result is exactly the script-derived
list (computed from the unchanged state). The embedding is a pure function
of its input, so the result is deterministic for identical input. -/
theorem c6_validateMergesDiagnostics (env : ModeEnv) (doc : TextDoc) (s : ScriptModeState) :
    (doValidation env doc s).1
        = (getTemplateDiagnostics env doc s).1
          ++ (getScriptDiagnostics env doc (getTemplateDiagnostics env doc s).2).1 ∧
    (env.config.templateTypeCheck = false →
      (getTemplateDiagnostics env doc s).1 = [] ∧
      (doValidation env doc s).1 = (getScriptDiagnostics env doc s).1) := by
  constructor
  · rfl
  · intro hoff
    have ht : getTemplateDiagnostics env doc s = ([], s) := by
      simp [getTemplateDiagnostics, hoff]
    constructor
    · rw [ht]
    · show (getTemplateDiagnostics env doc s).1
          ++ (getScriptDiagnostics env doc (getTemplateDiagnostics env doc s).2).1
          = (getScriptDiagnostics env doc s).1
      rw [ht]
      rfl

/-- C6 witness: with template type-checking disabled, validation returns
exactly the script diagnostics. -/
theorem c6_witness :
    modeEnvNoTplCheck.config.templateTypeCheck = false ∧
      (doValidation modeEnvNoTplCheck doc0 modeStateEmpty).1
        = (getScriptDiagnostics modeEnvNoTplCheck doc0 modeStateEmpty).1 :=
  ⟨rfl, ((c6_validateMergesDiagnostics modeEnvNoTplCheck doc0 modeStateEmpty).2 rfl).2⟩

/-- Items built from entries surviving a name filter keep the filtered
names out. -/
theorem completionItems_no_bridge (build : Nat → CompletionEntryM → CompletionItem)
    (hlabel : ∀ j e, (build j e).label = e.name) (pred : CompletionEntryM → Bool)
    (hpred : ∀ e, pred e = true → e.name ≠ "__vueEditorBridge")
    (entries : List CompletionEntryM) (item : CompletionItem)
    (h : item ∈ mapWithIndex build 0 (entries.filter pred)) :
    item.label ≠ "__vueEditorBridge" := by
  obtain ⟨j, e, hmem, hitem⟩ := mem_mapWithIndex _ 0 _ item h
  have hname := hpred e (List.mem_filter.mp hmem).2
  rw [hitem, hlabel]
  exact hname

/-- C8: no completion item returned by the script-mode `doComplete` is
labeled `__vueEditorBridge`; the bridge helper is filtered out of the
engine's entries before conversion. -/
theorem c8_noBridgeCompletion (env : ModeEnv) (doc : TextDoc) (position : Pos)
    (s : ScriptModeState) (item : CompletionItem)
    (h : item ∈ (doComplete env doc position s).1.items) :
    item.label ≠ "__vueEditorBridge" := by
  simp only [doComplete] at h
  repeat' split at h
  all_goals
    first
    | (simp at h; done)
    | exact completionItems_no_bridge _ (fun _ _ => rfl) _
        (fun e hp => by simpa using hp) _ _ h

/-- C8 witness: an engine offering both `__vueEditorBridge` and `foo`
yields a completion list containing the `foo` item, whose label is not the
bridge helper. -/
theorem c8_witness :
    fooItem ∈ (doComplete modeEnv0 doc0 pos00 modeStateCompletions).1.items ∧
      fooItem.label ≠ "__vueEditorBridge" :=
  ⟨by decide, c8_noBridgeCompletion modeEnv0 doc0 pos00 modeStateCompletions fooItem (by decide)⟩

end Vetur
